import Mathlib

/-!
Verification of the CloudFit interview scheduling engine.

The definitions below are a shallow embedding of the core scheduling
engine from `src/main.cpp`: `TimeSlot` with its `overlaps` predicate,
`User` (participant) with availability windows and the set of active
bookings, `Interview` records, and the `Scheduler` with its operations
`add_user`, `add_availability`, `schedule_interview`, `has_conflict`,
`cancel_interview`.  C++ `std::chrono` time points are modelled as
integers ordered by `<`; the `std::map` registries are modelled as
association lists keyed by id; `std::set<int>` is modelled as a list
managed with membership-respecting insert and erase.  Exceptions thrown
by `schedule_interview` are modelled as an `Except` result carrying one
of the four distinguishable error kinds; the threaded scheduler state is
returned alongside the result, so that a failing call returning the
input state expresses the absence of mutation before each throw site in
the source.
-/

set_option maxHeartbeats 1000000

namespace CloudFit

inductive UserRole where
  | HR_MANAGER
  | INTERVIEWER
deriving DecidableEq

inductive InterviewStatus where
  | SCHEDULED
  | COMPLETED
  | CANCELLED
  | RESCHEDULED
deriving DecidableEq

/-- Time slot structure; `std::chrono::system_clock::time_point` is modelled
as an integer instant. -/
structure TimeSlot where
  start_time : Int
  end_time : Int
deriving DecidableEq

/-- `TimeSlot::overlaps`: `start_time < other.end_time && end_time > other.start_time`. -/
def TimeSlot.overlaps (a other : TimeSlot) : Bool :=
  decide (a.start_time < other.end_time) && decide (a.end_time > other.start_time)

/-- The `User` class: id, name, email, role, availability windows, and the
set of currently scheduled interview ids. -/
structure User where
  user_id : Nat
  name : String
  email : String
  role : UserRole
  availability : List TimeSlot
  scheduled_interviews : List Nat
deriving DecidableEq

/-- `User::add_availability`: appends the slot to the availability vector. -/
def User.add_availability (u : User) (slot : TimeSlot) : User :=
  { u with availability := u.availability ++ [slot] }

/-- `User::is_available`: true iff some availability window satisfies
`slot.start_time >= available_slot.start_time && slot.end_time <= available_slot.end_time`. -/
def User.is_available (u : User) (slot : TimeSlot) : Bool :=
  u.availability.any fun available_slot =>
    decide (slot.start_time ≥ available_slot.start_time) &&
    decide (slot.end_time ≤ available_slot.end_time)

/-- `User::add_scheduled_interview`: `std::set` insert (no duplicates). -/
def User.add_scheduled_interview (u : User) (interview_id : Nat) : User :=
  { u with scheduled_interviews :=
      if interview_id ∈ u.scheduled_interviews then u.scheduled_interviews
      else interview_id :: u.scheduled_interviews }

/-- `User::remove_scheduled_interview`: `std::set` erase (no-op if absent). -/
def User.remove_scheduled_interview (u : User) (interview_id : Nat) : User :=
  { u with scheduled_interviews :=
      u.scheduled_interviews.filter fun i => decide (i ≠ interview_id) }

/-- The `Interview` record. -/
structure Interview where
  interview_id : Nat
  candidate_name : String
  position : String
  hr_manager_id : Nat
  interviewer_id : Nat
  time_slot : TimeSlot
  status : InterviewStatus
  notes : String
deriving DecidableEq

/-- An interview references a participant when that participant is its HR
manager or its interviewer. -/
def Interview.references (iv : Interview) (p : Nat) : Prop :=
  iv.hr_manager_id = p ∨ iv.interviewer_id = p

instance (iv : Interview) (p : Nat) : Decidable (iv.references p) := by
  unfold Interview.references
  infer_instance

/-- Two interviews share a participant when some id is referenced by both. -/
def sharesParticipant (v1 v2 : Interview) : Prop :=
  ∃ p, v1.references p ∧ v2.references p

/-- The four distinguishable failure kinds of `schedule_interview`, in the
order the source checks them: `"Invalid user ID"`, the two role errors,
the two availability errors, and `"Time slot conflicts with existing interview"`. -/
inductive BookError where
  | UnknownParticipant
  | RoleMismatch
  | NotAvailable
  | SlotConflict
deriving DecidableEq

instance {ε α : Type} [DecidableEq ε] [DecidableEq α] : DecidableEq (Except ε α) :=
  fun a b =>
  match a, b with
  | Except.error e1, Except.error e2 =>
    if h : e1 = e2 then isTrue (by rw [h]) else isFalse (by intro hc; cases hc; exact h rfl)
  | Except.ok v1, Except.ok v2 =>
    if h : v1 = v2 then isTrue (by rw [h]) else isFalse (by intro hc; cases hc; exact h rfl)
  | Except.error _, Except.ok _ => isFalse (by intro hc; cases hc)
  | Except.ok _, Except.error _ => isFalse (by intro hc; cases hc)

/-- Lookup by key in an association list, modelling `std::map::find`. -/
def lookupId {β : Type} : List (Nat × β) → Nat → Option β
  | [], _ => none
  | (k, v) :: rest, key => if k = key then some v else lookupId rest key

/-- Update the value at a key in an association list (in-place mutation
through a `std::map` iterator / owned pointer). -/
def updateId {β : Type} (l : List (Nat × β)) (key : Nat) (f : β → β) : List (Nat × β) :=
  l.map fun p => if p.1 = key then (p.1, f p.2) else p

/-- The keys of an association list. -/
def keysOf {β : Type} (l : List (Nat × β)) : List Nat := l.map Prod.fst

/-- The `Scheduler` class state: the two registries and the two monotone
id counters (`User::next_id` and `Interview::next_id`, both starting at 1). -/
structure Scheduler where
  users : List (Nat × User)
  interviews : List (Nat × Interview)
  next_user_id : Nat
  next_interview_id : Nat
deriving DecidableEq

/-- A freshly constructed scheduler with both counters at 1. -/
def Scheduler.init : Scheduler :=
  { users := [], interviews := [], next_user_id := 1, next_interview_id := 1 }

/-- `Scheduler::get_user`. -/
def Scheduler.get_user (s : Scheduler) (user_id : Nat) : Option User :=
  lookupId s.users user_id

/-- `Scheduler::get_interview`. -/
def Scheduler.get_interview (s : Scheduler) (interview_id : Nat) : Option Interview :=
  lookupId s.interviews interview_id

/-- `Scheduler::add_user`: create a user with the next id and store it. -/
def Scheduler.add_user (s : Scheduler) (name email : String) (role : UserRole) :
    Scheduler × Nat :=
  ({ s with
      users := (s.next_user_id,
        { user_id := s.next_user_id, name := name, email := email, role := role,
          availability := [], scheduled_interviews := [] }) :: s.users,
      next_user_id := s.next_user_id + 1 }, s.next_user_id)

/-- The caller-side idiom `scheduler.get_user(id)->add_availability(slot)`:
mutate the stored user's availability through the registry. -/
def Scheduler.add_availability (s : Scheduler) (user_id : Nat) (slot : TimeSlot) : Scheduler :=
  { s with users := updateId s.users user_id fun u => u.add_availability slot }

/-- `Scheduler::has_conflict`: an unknown user yields `false`; otherwise scan
the user's scheduled interview ids for a resolvable interview that is
SCHEDULED and whose slot overlaps the argument slot. -/
def Scheduler.has_conflict (s : Scheduler) (user_id : Nat) (time_slot : TimeSlot) : Bool :=
  match s.get_user user_id with
  | none => false
  | some user =>
    user.scheduled_interviews.any fun interview_id =>
      match s.get_interview interview_id with
      | some interview =>
          decide (interview.status = InterviewStatus.SCHEDULED) &&
          interview.time_slot.overlaps time_slot
      | none => false

/-- `Scheduler::schedule_interview`: resolve both users, check roles, check
availability, check conflicts — throwing (modelled as `Except.error` with the
unmutated state) in that order — then create the Interview with the next id,
register it in both users' scheduled sets and in the interview registry. -/
def Scheduler.schedule_interview (s : Scheduler) (candidate_name position : String)
    (hr_manager_id interviewer_id : Nat) (time_slot : TimeSlot) :
    Scheduler × Except BookError Nat :=
  match s.get_user hr_manager_id, s.get_user interviewer_id with
  | some hr_manager, some interviewer =>
    if hr_manager.role ≠ UserRole.HR_MANAGER then
      (s, Except.error BookError.RoleMismatch)
    else if interviewer.role ≠ UserRole.INTERVIEWER then
      (s, Except.error BookError.RoleMismatch)
    else if hr_manager.is_available time_slot = false then
      (s, Except.error BookError.NotAvailable)
    else if interviewer.is_available time_slot = false then
      (s, Except.error BookError.NotAvailable)
    else if (s.has_conflict hr_manager_id time_slot ||
             s.has_conflict interviewer_id time_slot) = true then
      (s, Except.error BookError.SlotConflict)
    else
      ({ s with
          users := updateId
            (updateId s.users hr_manager_id fun u =>
              u.add_scheduled_interview s.next_interview_id)
            interviewer_id fun u => u.add_scheduled_interview s.next_interview_id,
          interviews := (s.next_interview_id,
            { interview_id := s.next_interview_id, candidate_name := candidate_name,
              position := position, hr_manager_id := hr_manager_id,
              interviewer_id := interviewer_id, time_slot := time_slot,
              status := InterviewStatus.SCHEDULED, notes := "" }) :: s.interviews,
          next_interview_id := s.next_interview_id + 1 },
       Except.ok s.next_interview_id)
  | _, _ => (s, Except.error BookError.UnknownParticipant)

/-- `Scheduler::cancel_interview`: false if the id does not resolve; otherwise
set the status to CANCELLED and erase the id from both referenced users'
scheduled sets (skipping a user that does not resolve). -/
def Scheduler.cancel_interview (s : Scheduler) (interview_id : Nat) : Scheduler × Bool :=
  match s.get_interview interview_id with
  | none => (s, false)
  | some interview =>
    ({ s with
        interviews := updateId s.interviews interview_id fun iv =>
          { iv with status := InterviewStatus.CANCELLED },
        users := updateId
          (updateId s.users interview.hr_manager_id fun u =>
            u.remove_scheduled_interview interview_id)
          interview.interviewer_id fun u =>
            u.remove_scheduled_interview interview_id }, true)

/-- The engine states reachable from a fresh scheduler through engine
operations only. -/
inductive Reachable : Scheduler → Prop where
  | init : Reachable Scheduler.init
  | add_user (s : Scheduler) (name email : String) (role : UserRole) :
      Reachable s → Reachable (s.add_user name email role).1
  | add_availability (s : Scheduler) (user_id : Nat) (slot : TimeSlot) :
      Reachable s → Reachable (s.add_availability user_id slot)
  | book (s : Scheduler) (c p : String) (hr iv : Nat) (t : TimeSlot) :
      Reachable s → Reachable (s.schedule_interview c p hr iv t).1
  | cancel (s : Scheduler) (interview_id : Nat) :
      Reachable s → Reachable (s.cancel_interview interview_id).1

/-- The engine invariant maintained by every operation: well-formed
registries, counter freshness, the counter counting created interviews,
the referential invariant tying `scheduled_interviews` to SCHEDULED
interview records, its converse, and conflict-freedom. -/
structure Inv (s : Scheduler) : Prop where
  users_nodup : (keysOf s.users).Nodup
  interviews_nodup : (keysOf s.interviews).Nodup
  users_fresh : ∀ k ∈ keysOf s.users, k < s.next_user_id
  interviews_fresh : ∀ k ∈ keysOf s.interviews, k < s.next_interview_id
  interview_count : s.next_interview_id = s.interviews.length + 1
  bookings_backed : ∀ uid u, (uid, u) ∈ s.users → ∀ iid ∈ u.scheduled_interviews,
    ∃ iv, lookupId s.interviews iid = some iv ∧
      iv.status = InterviewStatus.SCHEDULED ∧
      (iv.hr_manager_id = uid ∨ iv.interviewer_id = uid)
  scheduled_registered : ∀ iid iv, (iid, iv) ∈ s.interviews →
    iv.status = InterviewStatus.SCHEDULED →
    (∃ u, lookupId s.users iv.hr_manager_id = some u ∧ iid ∈ u.scheduled_interviews) ∧
    (∃ u, lookupId s.users iv.interviewer_id = some u ∧ iid ∈ u.scheduled_interviews)
  no_double : ∀ i1 v1 i2 v2, (i1, v1) ∈ s.interviews → (i2, v2) ∈ s.interviews →
    i1 ≠ i2 → v1.status = InterviewStatus.SCHEDULED →
    v2.status = InterviewStatus.SCHEDULED → sharesParticipant v1 v2 →
    v1.time_slot.overlaps v2.time_slot = false

/-- Demo state: one HR manager registered (id 1). -/
def demoS1 : Scheduler :=
  (Scheduler.init.add_user ("Alice Johnson") ("alice@cloudfit.com") UserRole.HR_MANAGER).1

/-- Demo state: additionally one interviewer registered (id 2). -/
def demoS2 : Scheduler :=
  (demoS1.add_user ("Carol Davis") ("carol@cloudfit.com") UserRole.INTERVIEWER).1

/-- Demo state: availability window for user 1. -/
def demoS3 : Scheduler := demoS2.add_availability 1 ⟨0, 100⟩

/-- Demo state: availability window for user 2. -/
def demoS4 : Scheduler := demoS3.add_availability 2 ⟨0, 100⟩

/-- Demo state: interview 1 booked between users 1 and 2 on slot `[10, 20)`. -/
def demoS5 : Scheduler :=
  (demoS4.schedule_interview ("John Doe") ("Software Engineer") 1 2 ⟨10, 20⟩).1

/-- The user record stored for id 1 in `demoS5`. -/
def demoAlice : User :=
  { user_id := 1, name := "Alice Johnson", email := "alice@cloudfit.com",
    role := UserRole.HR_MANAGER, availability := [⟨0, 100⟩],
    scheduled_interviews := [1] }

/-- The user record stored for id 2 in `demoS5`. -/
def demoCarol : User :=
  { user_id := 2, name := "Carol Davis", email := "carol@cloudfit.com",
    role := UserRole.INTERVIEWER, availability := [⟨0, 100⟩],
    scheduled_interviews := [1] }

/-- The interview record stored for id 1 in `demoS5`. -/
def demoInterview1 : Interview :=
  { interview_id := 1, candidate_name := "John Doe", position := "Software Engineer",
    hr_manager_id := 1, interviewer_id := 2, time_slot := ⟨10, 20⟩,
    status := InterviewStatus.SCHEDULED, notes := "" }

/-- Demo state with a third participant: interviewer Eve registered as id 3
on top of the two-user state. -/
def demoE1 : Scheduler :=
  (demoS2.add_user ("Eve Brown") ("eve@cloudfit.com") UserRole.INTERVIEWER).1

/-- Demo state: availability window for user 1. -/
def demoE2 : Scheduler := demoE1.add_availability 1 ⟨0, 100⟩

/-- Demo state: availability window for user 2. -/
def demoE3 : Scheduler := demoE2.add_availability 2 ⟨0, 100⟩

/-- Demo state: availability window for user 3. -/
def demoE4 : Scheduler := demoE3.add_availability 3 ⟨0, 100⟩

/-- Demo state: interview 1 booked between users 1 and 2 on slot `[10, 20)`,
with user 3 available and booking-free. -/
def demoE5 : Scheduler :=
  (demoE4.schedule_interview ("John Doe") ("Software Engineer") 1 2 ⟨10, 20⟩).1

/-- The user record stored for id 3 in `demoE5`. -/
def demoEve : User :=
  { user_id := 3, name := "Eve Brown", email := "eve@cloudfit.com",
    role := UserRole.INTERVIEWER, availability := [⟨0, 100⟩],
    scheduled_interviews := [] }

/-- A user with two availability windows, for order-independence checks. -/
def demoUserA : User :=
  { user_id := 7, name := "A", email := "a", role := UserRole.INTERVIEWER,
    availability := [⟨0, 10⟩, ⟨20, 30⟩], scheduled_interviews := [] }

/-- The same user with the availability windows listed in the other order. -/
def demoUserB : User :=
  { user_id := 7, name := "A", email := "a", role := UserRole.INTERVIEWER,
    availability := [⟨20, 30⟩, ⟨0, 10⟩], scheduled_interviews := [] }

/-! ## Association list lemmas -/

lemma lookupId_nil {β : Type} (k : Nat) : lookupId ([] : List (Nat × β)) k = none := rfl

lemma lookupId_cons {β : Type} (k₀ : Nat) (v₀ : β) (rest : List (Nat × β)) (k : Nat) :
    lookupId ((k₀, v₀) :: rest) k = if k₀ = k then some v₀ else lookupId rest k := rfl

lemma lookupId_mem_keys {β : Type} {l : List (Nat × β)} {k : Nat} {v : β}
    (h : lookupId l k = some v) : k ∈ keysOf l := by
  induction l with
  | nil => simp [lookupId_nil] at h
  | cons p rest ih =>
    obtain ⟨k₀, v₀⟩ := p
    rw [lookupId_cons] at h
    by_cases hk : k₀ = k
    · subst hk; simp [keysOf]
    · rw [if_neg hk] at h
      simpa [keysOf] using Or.inr (ih h)

lemma lookupId_eq_some_mem {β : Type} {l : List (Nat × β)} {k : Nat} {v : β}
    (h : lookupId l k = some v) : (k, v) ∈ l := by
  induction l with
  | nil => simp [lookupId_nil] at h
  | cons p rest ih =>
    obtain ⟨k₀, v₀⟩ := p
    rw [lookupId_cons] at h
    by_cases hk : k₀ = k
    · subst hk
      rw [if_pos rfl] at h
      obtain rfl : v₀ = v := Option.some.inj h
      exact List.mem_cons_self _ _
    · rw [if_neg hk] at h
      exact List.mem_cons_of_mem _ (ih h)

lemma lookupId_not_mem_keys {β : Type} {l : List (Nat × β)} {k : Nat}
    (h : k ∉ keysOf l) : lookupId l k = none := by
  induction l with
  | nil => rfl
  | cons p rest ih =>
    obtain ⟨k₀, v₀⟩ := p
    simp only [keysOf, List.map_cons, List.mem_cons] at h
    push_neg at h
    rw [lookupId_cons, if_neg (fun hc => h.1 hc.symm)]
    exact ih h.2

lemma mem_lookupId {β : Type} {l : List (Nat × β)} {k : Nat} {v : β}
    (hnd : (keysOf l).Nodup) (h : (k, v) ∈ l) : lookupId l k = some v := by
  induction l with
  | nil => simp at h
  | cons p rest ih =>
    obtain ⟨k₀, v₀⟩ := p
    simp only [keysOf, List.map_cons, List.nodup_cons] at hnd
    rcases List.mem_cons.mp h with h1 | h2
    · injection h1 with h1a h1b
      subst h1a; subst h1b
      rw [lookupId_cons, if_pos rfl]
    · have hk : k₀ ≠ k := by
        intro hc
        subst hc
        exact hnd.1 (List.mem_map.mpr ⟨(k₀, v), h2, rfl⟩)
      rw [lookupId_cons, if_neg hk]
      exact ih hnd.2 h2

lemma keysOf_updateId {β : Type} (l : List (Nat × β)) (key : Nat) (f : β → β) :
    keysOf (updateId l key f) = keysOf l := by
  induction l with
  | nil => rfl
  | cons p rest ih =>
    obtain ⟨k₀, v₀⟩ := p
    simp only [updateId, keysOf, List.map_cons] at *
    by_cases hk : k₀ = key <;> simp [hk, ih]

lemma length_updateId {β : Type} (l : List (Nat × β)) (key : Nat) (f : β → β) :
    (updateId l key f).length = l.length := by
  simp [updateId]

lemma lookupId_updateId_self {β : Type} (l : List (Nat × β)) (key : Nat) (f : β → β) :
    lookupId (updateId l key f) key = Option.map f (lookupId l key) := by
  induction l with
  | nil => rfl
  | cons p rest ih =>
    obtain ⟨k₀, v₀⟩ := p
    simp only [updateId, List.map_cons] at *
    by_cases hk : k₀ = key
    · subst hk
      rw [if_pos rfl, lookupId_cons, lookupId_cons, if_pos rfl, if_pos rfl]
      rfl
    · rw [if_neg hk, lookupId_cons, lookupId_cons, if_neg hk, if_neg hk]
      exact ih

lemma lookupId_updateId_ne {β : Type} {l : List (Nat × β)} {key k : Nat} (f : β → β)
    (h : k ≠ key) : lookupId (updateId l key f) k = lookupId l k := by
  induction l with
  | nil => rfl
  | cons p rest ih =>
    obtain ⟨k₀, v₀⟩ := p
    simp only [updateId, List.map_cons] at *
    by_cases hk : k₀ = key
    · subst hk
      rw [if_pos rfl, lookupId_cons, lookupId_cons,
        if_neg (fun hc => h hc.symm), if_neg (fun hc => h hc.symm)]
      exact ih
    · rw [if_neg hk, lookupId_cons, lookupId_cons]
      by_cases hk2 : k₀ = k
      · rw [if_pos hk2, if_pos hk2]
      · rw [if_neg hk2, if_neg hk2]
        exact ih

lemma mem_updateId_elim {β : Type} {l : List (Nat × β)} {key : Nat} {f : β → β}
    {k : Nat} {v : β} (h : (k, v) ∈ updateId l key f) :
    (k = key ∧ ∃ v₀, (k, v₀) ∈ l ∧ v = f v₀) ∨ (k ≠ key ∧ (k, v) ∈ l) := by
  unfold updateId at h
  rcases List.mem_map.mp h with ⟨⟨k₀, v₀⟩, hp, he⟩
  by_cases hk : k₀ = key
  · rw [if_pos hk] at he
    injection he with h1 h2
    subst h1
    exact Or.inl ⟨hk, v₀, hp, h2.symm⟩
  · rw [if_neg hk] at he
    injection he with h1 h2
    subst h1; subst h2
    exact Or.inr ⟨hk, hp⟩

lemma mem_updateId_intro_ne {β : Type} {l : List (Nat × β)} {key : Nat} (f : β → β)
    {k : Nat} {v : β} (h : (k, v) ∈ l) (hk : k ≠ key) : (k, v) ∈ updateId l key f := by
  unfold updateId
  exact List.mem_map.mpr ⟨(k, v), h, by rw [if_neg hk]⟩

lemma updateId_updateId_same {β : Type} (l : List (Nat × β)) (key : Nat) (f g : β → β) :
    updateId (updateId l key f) key g = updateId l key fun v => g (f v) := by
  induction l with
  | nil => rfl
  | cons p rest ih =>
    obtain ⟨k₀, v₀⟩ := p
    simp only [updateId, List.map_cons] at *
    by_cases hk : k₀ = key <;> simp [hk, ih]

lemma updateId_comm {β : Type} (l : List (Nat × β)) {k₁ k₂ : Nat} (f g : β → β)
    (h : k₁ ≠ k₂) :
    updateId (updateId l k₁ f) k₂ g = updateId (updateId l k₂ g) k₁ f := by
  unfold updateId
  rw [List.map_map, List.map_map]
  apply congrArg fun F => List.map F l
  funext p
  obtain ⟨k₀, v₀⟩ := p
  by_cases h1 : k₀ = k₁ <;> by_cases h2 : k₀ = k₂
  · exact absurd (h1.symm.trans h2) h
  · simp [Function.comp, h1, h2, h, Ne.symm h]
  · simp [Function.comp, h1, h2, h, Ne.symm h]
  · simp [Function.comp, h1, h2, h, Ne.symm h]

/-! ## Set-of-bookings lemmas -/

lemma mem_add_scheduled {u : User} {n iid : Nat} :
    iid ∈ (u.add_scheduled_interview n).scheduled_interviews ↔
      iid = n ∨ iid ∈ u.scheduled_interviews := by
  unfold User.add_scheduled_interview
  by_cases h : n ∈ u.scheduled_interviews
  · rw [if_pos h]
    constructor
    · exact Or.inr
    · rintro (rfl | hm)
      · exact h
      · exact hm
  · rw [if_neg h]
    exact List.mem_cons

lemma mem_remove_scheduled {u : User} {j iid : Nat} :
    iid ∈ (u.remove_scheduled_interview j).scheduled_interviews ↔
      iid ∈ u.scheduled_interviews ∧ iid ≠ j := by
  unfold User.remove_scheduled_interview
  simp [List.mem_filter]

lemma add_scheduled_role (u : User) (n : Nat) :
    (u.add_scheduled_interview n).role = u.role := rfl

lemma add_scheduled_availability (u : User) (n : Nat) :
    (u.add_scheduled_interview n).availability = u.availability := rfl

lemma remove_scheduled_role (u : User) (n : Nat) :
    (u.remove_scheduled_interview n).role = u.role := rfl

lemma remove_scheduled_availability (u : User) (n : Nat) :
    (u.remove_scheduled_interview n).availability = u.availability := rfl

lemma remove_scheduled_idem (u : User) (j : Nat) :
    (u.remove_scheduled_interview j).remove_scheduled_interview j =
      u.remove_scheduled_interview j := by
  unfold User.remove_scheduled_interview
  simp [List.filter_filter]

lemma is_available_congr {u u' : User} (h : u'.availability = u.availability)
    (t : TimeSlot) : u'.is_available t = u.is_available t := by
  unfold User.is_available
  rw [h]

/-! ## Overlap lemmas -/

lemma overlaps_symm (a b : TimeSlot) : a.overlaps b = b.overlaps a := by
  unfold TimeSlot.overlaps
  rw [Bool.and_comm]

/-! ## Conflict-check characterization -/

lemma has_conflict_iff {s : Scheduler} {uid : Nat} {t : TimeSlot} :
    s.has_conflict uid t = true ↔
      ∃ u, s.get_user uid = some u ∧ ∃ iid, iid ∈ u.scheduled_interviews ∧
        ∃ iv, s.get_interview iid = some iv ∧
          iv.status = InterviewStatus.SCHEDULED ∧ iv.time_slot.overlaps t = true := by
  unfold Scheduler.has_conflict
  cases hu : s.get_user uid with
  | none =>
    simp
  | some u =>
    simp only [Option.some.injEq, List.any_eq_true]
    constructor
    · rintro ⟨iid, hmem, hp⟩
      refine ⟨u, rfl, iid, hmem, ?_⟩
      cases hi : s.get_interview iid with
      | none => rw [hi] at hp; simp at hp
      | some iv =>
        rw [hi] at hp
        simp only [Bool.and_eq_true, decide_eq_true_eq] at hp
        exact ⟨iv, rfl, hp.1, hp.2⟩
    · rintro ⟨u', hu', iid, hmem, iv, hi, hst, hov⟩
      obtain rfl : u' = u := hu'.symm ▸ rfl
      refine ⟨iid, hmem, ?_⟩
      rw [hi]
      simp [hst, hov]

lemma has_conflict_true_intro {s : Scheduler} {uid : Nat} {t : TimeSlot} {u : User}
    {iid : Nat} {iv : Interview} (hu : s.get_user uid = some u)
    (hmem : iid ∈ u.scheduled_interviews) (hi : s.get_interview iid = some iv)
    (hst : iv.status = InterviewStatus.SCHEDULED)
    (hov : iv.time_slot.overlaps t = true) : s.has_conflict uid t = true :=
  has_conflict_iff.mpr ⟨u, hu, iid, hmem, iv, hi, hst, hov⟩

lemma has_conflict_false_elim {s : Scheduler} {uid : Nat} {t : TimeSlot} {u : User}
    {iid : Nat} {iv : Interview} (h : s.has_conflict uid t = false)
    (hu : s.get_user uid = some u) (hmem : iid ∈ u.scheduled_interviews)
    (hi : s.get_interview iid = some iv)
    (hst : iv.status = InterviewStatus.SCHEDULED) :
    iv.time_slot.overlaps t = false := by
  cases hov : iv.time_slot.overlaps t with
  | false => rfl
  | true =>
    rw [has_conflict_true_intro hu hmem hi hst hov] at h
    cases h

/-! ## Evaluation lemmas for `schedule_interview` -/

lemma schedule_unknown_eval {s : Scheduler} {c pos : String} {hr iv : Nat} {t : TimeSlot}
    (h : s.get_user hr = none ∨ s.get_user iv = none) :
    s.schedule_interview c pos hr iv t = (s, Except.error BookError.UnknownParticipant) := by
  unfold Scheduler.schedule_interview
  rcases h with h | h
  · rw [h]
  · rw [h]
    cases s.get_user hr <;> rfl

lemma schedule_role_eval {s : Scheduler} {c pos : String} {hr iv : Nat} {t : TimeSlot}
    {u_hr u_iv : User} (hhr : s.get_user hr = some u_hr) (hiv : s.get_user iv = some u_iv)
    (h : u_hr.role ≠ UserRole.HR_MANAGER ∨ u_iv.role ≠ UserRole.INTERVIEWER) :
    s.schedule_interview c pos hr iv t = (s, Except.error BookError.RoleMismatch) := by
  unfold Scheduler.schedule_interview
  rw [hhr, hiv]
  dsimp only
  rcases h with h | h
  · rw [if_pos h]
  · by_cases h1 : u_hr.role ≠ UserRole.HR_MANAGER
    · rw [if_pos h1]
    · rw [if_neg h1, if_pos h]

lemma schedule_notavail_eval {s : Scheduler} {c pos : String} {hr iv : Nat} {t : TimeSlot}
    {u_hr u_iv : User} (hhr : s.get_user hr = some u_hr) (hiv : s.get_user iv = some u_iv)
    (r1 : u_hr.role = UserRole.HR_MANAGER) (r2 : u_iv.role = UserRole.INTERVIEWER)
    (h : u_hr.is_available t = false ∨ u_iv.is_available t = false) :
    s.schedule_interview c pos hr iv t = (s, Except.error BookError.NotAvailable) := by
  unfold Scheduler.schedule_interview
  rw [hhr, hiv]
  dsimp only
  rw [if_neg (fun hc => hc r1), if_neg (fun hc => hc r2)]
  rcases h with h | h
  · rw [if_pos h]
  · by_cases h1 : u_hr.is_available t = false
    · rw [if_pos h1]
    · rw [if_neg h1, if_pos h]

lemma schedule_conflict_eval {s : Scheduler} {c pos : String} {hr iv : Nat} {t : TimeSlot}
    {u_hr u_iv : User} (hhr : s.get_user hr = some u_hr) (hiv : s.get_user iv = some u_iv)
    (r1 : u_hr.role = UserRole.HR_MANAGER) (r2 : u_iv.role = UserRole.INTERVIEWER)
    (a1 : u_hr.is_available t = true) (a2 : u_iv.is_available t = true)
    (hc : (s.has_conflict hr t || s.has_conflict iv t) = true) :
    s.schedule_interview c pos hr iv t = (s, Except.error BookError.SlotConflict) := by
  unfold Scheduler.schedule_interview
  rw [hhr, hiv]
  dsimp only
  rw [if_neg (fun h => h r1), if_neg (fun h => h r2),
    if_neg (by simp [a1]), if_neg (by simp [a2]), if_pos hc]

lemma schedule_success_eval {s : Scheduler} {c pos : String} {hr iv : Nat} {t : TimeSlot}
    {u_hr u_iv : User} (hhr : s.get_user hr = some u_hr) (hiv : s.get_user iv = some u_iv)
    (r1 : u_hr.role = UserRole.HR_MANAGER) (r2 : u_iv.role = UserRole.INTERVIEWER)
    (a1 : u_hr.is_available t = true) (a2 : u_iv.is_available t = true)
    (hc1 : s.has_conflict hr t = false) (hc2 : s.has_conflict iv t = false) :
    s.schedule_interview c pos hr iv t =
      ({ s with
          users := updateId
            (updateId s.users hr fun u => u.add_scheduled_interview s.next_interview_id)
            iv fun u => u.add_scheduled_interview s.next_interview_id,
          interviews := (s.next_interview_id,
            { interview_id := s.next_interview_id, candidate_name := c,
              position := pos, hr_manager_id := hr, interviewer_id := iv,
              time_slot := t, status := InterviewStatus.SCHEDULED,
              notes := "" }) :: s.interviews,
          next_interview_id := s.next_interview_id + 1 },
       Except.ok s.next_interview_id) := by
  unfold Scheduler.schedule_interview
  rw [hhr, hiv]
  dsimp only
  rw [if_neg (fun h => h r1), if_neg (fun h => h r2),
    if_neg (by simp [a1]), if_neg (by simp [a2]), if_neg (by simp [hc1, hc2])]

/-- Exhaustive case analysis on a `schedule_interview` call: exactly one of
the five outcome profiles holds, tying the produced result and state to the
conditions the source checks, in the order it checks them. -/
lemma schedule_cases (s : Scheduler) (c pos : String) (hr iv : Nat) (t : TimeSlot) :
    ((s.get_user hr = none ∨ s.get_user iv = none) ∧
      s.schedule_interview c pos hr iv t = (s, Except.error BookError.UnknownParticipant)) ∨
    (∃ u_hr u_iv, s.get_user hr = some u_hr ∧ s.get_user iv = some u_iv ∧
      (u_hr.role ≠ UserRole.HR_MANAGER ∨ u_iv.role ≠ UserRole.INTERVIEWER) ∧
      s.schedule_interview c pos hr iv t = (s, Except.error BookError.RoleMismatch)) ∨
    (∃ u_hr u_iv, s.get_user hr = some u_hr ∧ s.get_user iv = some u_iv ∧
      u_hr.role = UserRole.HR_MANAGER ∧ u_iv.role = UserRole.INTERVIEWER ∧
      (u_hr.is_available t = false ∨ u_iv.is_available t = false) ∧
      s.schedule_interview c pos hr iv t = (s, Except.error BookError.NotAvailable)) ∨
    (∃ u_hr u_iv, s.get_user hr = some u_hr ∧ s.get_user iv = some u_iv ∧
      u_hr.role = UserRole.HR_MANAGER ∧ u_iv.role = UserRole.INTERVIEWER ∧
      u_hr.is_available t = true ∧ u_iv.is_available t = true ∧
      (s.has_conflict hr t = true ∨ s.has_conflict iv t = true) ∧
      s.schedule_interview c pos hr iv t = (s, Except.error BookError.SlotConflict)) ∨
    (∃ u_hr u_iv, s.get_user hr = some u_hr ∧ s.get_user iv = some u_iv ∧
      u_hr.role = UserRole.HR_MANAGER ∧ u_iv.role = UserRole.INTERVIEWER ∧
      u_hr.is_available t = true ∧ u_iv.is_available t = true ∧
      s.has_conflict hr t = false ∧ s.has_conflict iv t = false ∧
      s.schedule_interview c pos hr iv t =
        ({ s with
            users := updateId
              (updateId s.users hr fun u => u.add_scheduled_interview s.next_interview_id)
              iv fun u => u.add_scheduled_interview s.next_interview_id,
            interviews := (s.next_interview_id,
              { interview_id := s.next_interview_id, candidate_name := c,
                position := pos, hr_manager_id := hr, interviewer_id := iv,
                time_slot := t, status := InterviewStatus.SCHEDULED,
                notes := "" }) :: s.interviews,
            next_interview_id := s.next_interview_id + 1 },
         Except.ok s.next_interview_id)) := by
  cases hhr : s.get_user hr with
  | none => exact Or.inl ⟨Or.inl rfl, schedule_unknown_eval (Or.inl hhr)⟩
  | some u_hr =>
    cases hiv : s.get_user iv with
    | none => exact Or.inl ⟨Or.inr rfl, schedule_unknown_eval (Or.inr hiv)⟩
    | some u_iv =>
      by_cases r1 : u_hr.role = UserRole.HR_MANAGER
      case neg =>
        exact Or.inr (Or.inl ⟨u_hr, u_iv, rfl, rfl, Or.inl r1,
          schedule_role_eval hhr hiv (Or.inl r1)⟩)
      case pos =>
      by_cases r2 : u_iv.role = UserRole.INTERVIEWER
      case neg =>
        exact Or.inr (Or.inl ⟨u_hr, u_iv, rfl, rfl, Or.inr r2,
          schedule_role_eval hhr hiv (Or.inr r2)⟩)
      case pos =>
      cases a1 : u_hr.is_available t with
      | false =>
        exact Or.inr (Or.inr (Or.inl ⟨u_hr, u_iv, rfl, rfl, r1, r2, Or.inl a1,
          schedule_notavail_eval hhr hiv r1 r2 (Or.inl a1)⟩))
      | true =>
      cases a2 : u_iv.is_available t with
      | false =>
        exact Or.inr (Or.inr (Or.inl ⟨u_hr, u_iv, rfl, rfl, r1, r2, Or.inr a2,
          schedule_notavail_eval hhr hiv r1 r2 (Or.inr a2)⟩))
      | true =>
      cases hc1 : s.has_conflict hr t with
      | true =>
        exact Or.inr (Or.inr (Or.inr (Or.inl ⟨u_hr, u_iv, rfl, rfl, r1, r2, a1, a2,
          Or.inl rfl, schedule_conflict_eval hhr hiv r1 r2 a1 a2 (by rw [hc1]; rfl)⟩)))
      | false =>
      cases hc2 : s.has_conflict iv t with
      | true =>
        exact Or.inr (Or.inr (Or.inr (Or.inl ⟨u_hr, u_iv, rfl, rfl, r1, r2, a1, a2,
          Or.inr rfl, schedule_conflict_eval hhr hiv r1 r2 a1 a2 (by rw [hc1, hc2]; rfl)⟩)))
      | false =>
        exact Or.inr (Or.inr (Or.inr (Or.inr ⟨u_hr, u_iv, rfl, rfl, r1, r2, a1, a2,
          rfl, rfl, schedule_success_eval hhr hiv r1 r2 a1 a2 hc1 hc2⟩)))

/-! ## Evaluation lemmas for `cancel_interview` -/

lemma cancel_none_eval {s : Scheduler} {j : Nat} (h : s.get_interview j = none) :
    s.cancel_interview j = (s, false) := by
  unfold Scheduler.cancel_interview
  rw [h]

lemma cancel_some_eval {s : Scheduler} {j : Nat} {ivrec : Interview}
    (h : s.get_interview j = some ivrec) :
    s.cancel_interview j =
      ({ s with
          interviews := updateId s.interviews j fun iv =>
            { iv with status := InterviewStatus.CANCELLED },
          users := updateId
            (updateId s.users ivrec.hr_manager_id fun u =>
              u.remove_scheduled_interview j)
            ivrec.interviewer_id fun u => u.remove_scheduled_interview j }, true) := by
  unfold Scheduler.cancel_interview
  rw [h]

/-! ## Users-registry update lemmas for the booking success path -/

lemma users2_mem_elim {us : List (Nat × User)} {hr iv n uid : Nat} {u' : User}
    (h : (uid, u') ∈ updateId
      (updateId us hr fun u => u.add_scheduled_interview n)
      iv fun u => u.add_scheduled_interview n) :
    ∃ u₀, (uid, u₀) ∈ us ∧
      u'.role = u₀.role ∧ u'.availability = u₀.availability ∧
      (∀ iid, iid ∈ u'.scheduled_interviews → iid = n ∨ iid ∈ u₀.scheduled_interviews) ∧
      (uid ≠ hr → uid ≠ iv → u' = u₀) := by
  rcases mem_updateId_elim h with ⟨hEq, u₁, h1, rfl⟩ | ⟨hNe, h1⟩
  · rcases mem_updateId_elim h1 with ⟨hEq2, u₀, h0, rfl⟩ | ⟨hNe2, h0⟩
    · refine ⟨u₀, h0, rfl, rfl, ?_, ?_⟩
      · intro iid hm
        rcases mem_add_scheduled.mp hm with h' | h'
        · exact Or.inl h'
        · rcases mem_add_scheduled.mp h' with h'' | h''
          · exact Or.inl h''
          · exact Or.inr h''
      · intro _ hNeIv
        exact absurd hEq hNeIv
    · refine ⟨u₁, h0, rfl, rfl, ?_, ?_⟩
      · intro iid hm
        rcases mem_add_scheduled.mp hm with h' | h'
        · exact Or.inl h'
        · exact Or.inr h'
      · intro _ hNeIv
        exact absurd hEq hNeIv
  · rcases mem_updateId_elim h1 with ⟨hEq2, u₀, h0, rfl⟩ | ⟨hNe2, h0⟩
    · refine ⟨u₀, h0, rfl, rfl, ?_, ?_⟩
      · intro iid hm
        rcases mem_add_scheduled.mp hm with h' | h'
        · exact Or.inl h'
        · exact Or.inr h'
      · intro hNeHr _
        exact absurd hEq2 hNeHr
    · exact ⟨u', h0, rfl, rfl, fun iid hm => Or.inr hm, fun _ _ => rfl⟩

lemma users2_lookup_mono {us : List (Nat × User)} {hr iv n : Nat} {k : Nat} {u : User}
    (hu : lookupId us k = some u) :
    ∃ u', lookupId (updateId
        (updateId us hr fun x => x.add_scheduled_interview n)
        iv fun x => x.add_scheduled_interview n) k = some u' ∧
      u'.role = u.role ∧ u'.availability = u.availability ∧
      ∀ x ∈ u.scheduled_interviews, x ∈ u'.scheduled_interviews := by
  by_cases hkiv : k = iv
  · subst hkiv
    rw [lookupId_updateId_self]
    by_cases hkhr : k = hr
    · subst hkhr
      rw [lookupId_updateId_self, hu]
      refine ⟨_, rfl, rfl, rfl, ?_⟩
      intro x hx
      exact mem_add_scheduled.mpr (Or.inr (mem_add_scheduled.mpr (Or.inr hx)))
    · rw [lookupId_updateId_ne _ hkhr, hu]
      refine ⟨_, rfl, rfl, rfl, ?_⟩
      intro x hx
      exact mem_add_scheduled.mpr (Or.inr hx)
  · rw [lookupId_updateId_ne _ hkiv]
    by_cases hkhr : k = hr
    · subst hkhr
      rw [lookupId_updateId_self, hu]
      refine ⟨_, rfl, rfl, rfl, ?_⟩
      intro x hx
      exact mem_add_scheduled.mpr (Or.inr hx)
    · rw [lookupId_updateId_ne _ hkhr, hu]
      exact ⟨u, rfl, rfl, rfl, fun x hx => hx⟩

lemma users2_lookup_hr {us : List (Nat × User)} {hr iv n : Nat} {u_hr : User}
    (hne : hr ≠ iv) (hu : lookupId us hr = some u_hr) :
    lookupId (updateId
        (updateId us hr fun x => x.add_scheduled_interview n)
        iv fun x => x.add_scheduled_interview n) hr =
      some (u_hr.add_scheduled_interview n) := by
  rw [lookupId_updateId_ne _ hne, lookupId_updateId_self, hu]
  rfl

lemma users2_lookup_iv {us : List (Nat × User)} {hr iv n : Nat} {u_iv : User}
    (hne : hr ≠ iv) (hu : lookupId us iv = some u_iv) :
    lookupId (updateId
        (updateId us hr fun x => x.add_scheduled_interview n)
        iv fun x => x.add_scheduled_interview n) iv =
      some (u_iv.add_scheduled_interview n) := by
  rw [lookupId_updateId_self, lookupId_updateId_ne _ (fun hc => hne hc.symm), hu]
  rfl

/-! ## Users-registry update lemmas for the cancellation path -/

lemma usersC_mem_elim {us : List (Nat × User)} {a b j uid : Nat} {u' : User}
    (h : (uid, u') ∈ updateId
      (updateId us a fun u => u.remove_scheduled_interview j)
      b fun u => u.remove_scheduled_interview j) :
    ∃ u₀, (uid, u₀) ∈ us ∧
      u'.role = u₀.role ∧ u'.availability = u₀.availability ∧
      (∀ iid, iid ∈ u'.scheduled_interviews → iid ∈ u₀.scheduled_interviews) ∧
      ((uid = a ∨ uid = b) → j ∉ u'.scheduled_interviews) := by
  rcases mem_updateId_elim h with ⟨hEq, u₁, h1, rfl⟩ | ⟨hNe, h1⟩
  · rcases mem_updateId_elim h1 with ⟨hEq2, u₀, h0, rfl⟩ | ⟨hNe2, h0⟩
    · refine ⟨u₀, h0, rfl, rfl, ?_, ?_⟩
      · intro iid hm
        exact (mem_remove_scheduled.mp (mem_remove_scheduled.mp hm).1).1
      · intro _ hm
        exact (mem_remove_scheduled.mp hm).2 rfl
    · refine ⟨u₁, h0, rfl, rfl, ?_, ?_⟩
      · intro iid hm
        exact (mem_remove_scheduled.mp hm).1
      · intro _ hm
        exact (mem_remove_scheduled.mp hm).2 rfl
  · rcases mem_updateId_elim h1 with ⟨hEq2, u₀, h0, rfl⟩ | ⟨hNe2, h0⟩
    · refine ⟨u₀, h0, rfl, rfl, ?_, ?_⟩
      · intro iid hm
        exact (mem_remove_scheduled.mp hm).1
      · intro _ hm
        exact (mem_remove_scheduled.mp hm).2 rfl
    · refine ⟨u', h0, rfl, rfl, fun iid hm => hm, ?_⟩
      intro hab
      rcases hab with hEq2 | hEq2
      · exact absurd hEq2 hNe2
      · exact absurd hEq2 hNe

lemma usersC_lookup_mono {us : List (Nat × User)} {a b j : Nat} {k : Nat} {u : User}
    (hu : lookupId us k = some u) :
    ∃ u', lookupId (updateId
        (updateId us a fun x => x.remove_scheduled_interview j)
        b fun x => x.remove_scheduled_interview j) k = some u' ∧
      u'.role = u.role ∧ u'.availability = u.availability ∧
      ∀ x ∈ u.scheduled_interviews, x ≠ j → x ∈ u'.scheduled_interviews := by
  by_cases hkb : k = b
  · subst hkb
    rw [lookupId_updateId_self]
    by_cases hka : k = a
    · subst hka
      rw [lookupId_updateId_self, hu]
      refine ⟨_, rfl, rfl, rfl, ?_⟩
      intro x hx hxj
      exact mem_remove_scheduled.mpr ⟨mem_remove_scheduled.mpr ⟨hx, hxj⟩, hxj⟩
    · rw [lookupId_updateId_ne _ hka, hu]
      refine ⟨_, rfl, rfl, rfl, ?_⟩
      intro x hx hxj
      exact mem_remove_scheduled.mpr ⟨hx, hxj⟩
  · rw [lookupId_updateId_ne _ hkb]
    by_cases hka : k = a
    · subst hka
      rw [lookupId_updateId_self, hu]
      refine ⟨_, rfl, rfl, rfl, ?_⟩
      intro x hx hxj
      exact mem_remove_scheduled.mpr ⟨hx, hxj⟩
    · rw [lookupId_updateId_ne _ hka, hu]
      exact ⟨u, rfl, rfl, rfl, fun x hx _ => hx⟩

/-! ## Invariant preservation -/

lemma registered_mem_set {s : Scheduler} (hInv : Inv s) {i : Nat} {v : Interview} {p : Nat}
    (hm : (i, v) ∈ s.interviews) (hst : v.status = InterviewStatus.SCHEDULED)
    (href : v.references p) :
    ∃ u, lookupId s.users p = some u ∧ i ∈ u.scheduled_interviews := by
  obtain ⟨h1, h2⟩ := hInv.scheduled_registered i v hm hst
  rcases href with h | h
  · rw [h] at h1
    exact h1
  · rw [h] at h2
    exact h2

lemma Inv_init : Inv Scheduler.init := by
  constructor <;> simp [Scheduler.init, keysOf]

lemma Inv_add_user {s : Scheduler} (hInv : Inv s) (name email : String)
    (role : UserRole) : Inv (s.add_user name email role).1 := by
  unfold Scheduler.add_user
  dsimp only
  have hfresh : s.next_user_id ∉ keysOf s.users :=
    fun hc => lt_irrefl s.next_user_id (hInv.users_fresh s.next_user_id hc)
  constructor
  · exact List.nodup_cons.mpr ⟨hfresh, hInv.users_nodup⟩
  · exact hInv.interviews_nodup
  · intro k hk
    rcases List.mem_cons.mp hk with rfl | hk
    · exact Nat.lt_succ_self _
    · exact Nat.lt_trans (hInv.users_fresh k hk) (Nat.lt_succ_self _)
  · exact hInv.interviews_fresh
  · exact hInv.interview_count
  · intro uid u hmem iid hiid
    rcases List.mem_cons.mp hmem with hhead | htail
    · injection hhead with h1 h2
      subst h2
      simp at hiid
    · exact hInv.bookings_backed uid u htail iid hiid
  · intro iid ivv hmem hst
    obtain ⟨⟨u1, hu1, hm1⟩, ⟨u2, hu2, hm2⟩⟩ := hInv.scheduled_registered iid ivv hmem hst
    constructor
    · refine ⟨u1, ?_, hm1⟩
      rw [lookupId_cons, if_neg ?_]
      · exact hu1
      · intro hc
        exact hfresh (hc ▸ lookupId_mem_keys hu1)
    · refine ⟨u2, ?_, hm2⟩
      rw [lookupId_cons, if_neg ?_]
      · exact hu2
      · intro hc
        exact hfresh (hc ▸ lookupId_mem_keys hu2)
  · exact hInv.no_double

lemma Inv_add_availability {s : Scheduler} (hInv : Inv s) (uid : Nat) (slot : TimeSlot) :
    Inv (s.add_availability uid slot) := by
  unfold Scheduler.add_availability
  constructor
  · show (keysOf (updateId s.users uid fun u => u.add_availability slot)).Nodup
    rw [keysOf_updateId]
    exact hInv.users_nodup
  · exact hInv.interviews_nodup
  · show ∀ k ∈ keysOf (updateId s.users uid fun u => u.add_availability slot), _
    rw [keysOf_updateId]
    exact hInv.users_fresh
  · exact hInv.interviews_fresh
  · exact hInv.interview_count
  · intro k u hmem iid hiid
    dsimp only at hmem
    rcases mem_updateId_elim hmem with ⟨hEq, u₀, h0, rfl⟩ | ⟨hNe, h0⟩
    · exact hInv.bookings_backed k u₀ h0 iid hiid
    · exact hInv.bookings_backed k u h0 iid hiid
  · intro iid ivv hmem hst
    dsimp only at hmem ⊢
    obtain ⟨⟨u1, hu1, hm1⟩, ⟨u2, hu2, hm2⟩⟩ := hInv.scheduled_registered iid ivv hmem hst
    constructor
    · by_cases hk : ivv.hr_manager_id = uid
      · refine ⟨u1.add_availability slot, ?_, hm1⟩
        rw [hk] at hu1
        rw [hk, lookupId_updateId_self, hu1]
        rfl
      · exact ⟨u1, by rw [lookupId_updateId_ne _ hk]; exact hu1, hm1⟩
    · by_cases hk : ivv.interviewer_id = uid
      · refine ⟨u2.add_availability slot, ?_, hm2⟩
        rw [hk] at hu2
        rw [hk, lookupId_updateId_self, hu2]
        rfl
      · exact ⟨u2, by rw [lookupId_updateId_ne _ hk]; exact hu2, hm2⟩
  · exact hInv.no_double

lemma Inv_book_success {s : Scheduler} (hInv : Inv s) {c pos : String} {hr iv : Nat}
    {t : TimeSlot} {u_hr u_iv : User}
    (hhr : s.get_user hr = some u_hr) (hiv : s.get_user iv = some u_iv)
    (r1 : u_hr.role = UserRole.HR_MANAGER) (r2 : u_iv.role = UserRole.INTERVIEWER)
    (hc1 : s.has_conflict hr t = false) (hc2 : s.has_conflict iv t = false) :
    Inv { s with
        users := updateId
          (updateId s.users hr fun u => u.add_scheduled_interview s.next_interview_id)
          iv fun u => u.add_scheduled_interview s.next_interview_id,
        interviews := (s.next_interview_id,
          { interview_id := s.next_interview_id, candidate_name := c,
            position := pos, hr_manager_id := hr, interviewer_id := iv,
            time_slot := t, status := InterviewStatus.SCHEDULED,
            notes := "" }) :: s.interviews,
        next_interview_id := s.next_interview_id + 1 } := by
  have hhr' : lookupId s.users hr = some u_hr := hhr
  have hiv' : lookupId s.users iv = some u_iv := hiv
  have hne : hr ≠ iv := by
    intro hc
    subst hc
    rw [hhr'] at hiv'
    obtain rfl : u_hr = u_iv := Option.some.inj hiv'
    rw [r1] at r2
    cases r2
  have hfresh : s.next_interview_id ∉ keysOf s.interviews :=
    fun hc => lt_irrefl _ (hInv.interviews_fresh _ hc)
  constructor
  · dsimp only
    rw [keysOf_updateId, keysOf_updateId]
    exact hInv.users_nodup
  · exact List.nodup_cons.mpr ⟨hfresh, hInv.interviews_nodup⟩
  · dsimp only
    rw [keysOf_updateId, keysOf_updateId]
    exact hInv.users_fresh
  · intro k hk
    rcases List.mem_cons.mp hk with rfl | hk
    · exact Nat.lt_succ_self _
    · exact Nat.lt_trans (hInv.interviews_fresh k hk) (Nat.lt_succ_self _)
  · show s.next_interview_id + 1 = s.interviews.length + 1 + 1
    rw [hInv.interview_count]
  · -- bookings_backed
    intro uid u' hmem iid hiid
    dsimp only at hmem hiid ⊢
    obtain ⟨u₀, h0, hrole, havail, hsub, hunch⟩ := users2_mem_elim hmem
    rcases hsub iid hiid with rfl | hold
    · -- the new interview id
      by_cases huid_hr : uid = hr
      · subst huid_hr
        refine ⟨⟨s.next_interview_id, c, pos, uid, iv, t,
            InterviewStatus.SCHEDULED, ""⟩, ?_, rfl, Or.inl rfl⟩
        rw [lookupId_cons, if_pos rfl]
      · by_cases huid_iv : uid = iv
        · subst huid_iv
          refine ⟨⟨s.next_interview_id, c, pos, hr, uid, t,
              InterviewStatus.SCHEDULED, ""⟩, ?_, rfl, Or.inr rfl⟩
          rw [lookupId_cons, if_pos rfl]
        · exfalso
          have hu' := hunch huid_hr huid_iv
          subst hu'
          obtain ⟨iv₀, hlk, _, _⟩ :=
            hInv.bookings_backed uid u' h0 s.next_interview_id hiid
          exact hfresh (lookupId_mem_keys hlk)
    · -- an old booking
      obtain ⟨iv₀, hlk, hst, href⟩ := hInv.bookings_backed uid u₀ h0 iid hold
      have hiidne : s.next_interview_id ≠ iid := by
        intro hc
        exact hfresh (hc ▸ lookupId_mem_keys hlk)
      refine ⟨iv₀, ?_, hst, href⟩
      rw [lookupId_cons, if_neg hiidne]
      exact hlk
  · -- scheduled_registered
    intro iid ivv hmem hst
    dsimp only at hmem ⊢
    rcases List.mem_cons.mp hmem with hhead | htail
    · injection hhead with h1 h2
      subst h1
      subst h2
      constructor
      · exact ⟨u_hr.add_scheduled_interview s.next_interview_id,
          users2_lookup_hr hne hhr', mem_add_scheduled.mpr (Or.inl rfl)⟩
      · exact ⟨u_iv.add_scheduled_interview s.next_interview_id,
          users2_lookup_iv hne hiv', mem_add_scheduled.mpr (Or.inl rfl)⟩
    · obtain ⟨⟨u1, hu1, hm1⟩, ⟨u2, hu2, hm2⟩⟩ :=
        hInv.scheduled_registered iid ivv htail hst
      constructor
      · obtain ⟨u1', hu1', _, _, hsub⟩ := users2_lookup_mono hu1
        exact ⟨u1', hu1', hsub _ hm1⟩
      · obtain ⟨u2', hu2', _, _, hsub⟩ := users2_lookup_mono hu2
        exact ⟨u2', hu2', hsub _ hm2⟩
  · -- no_double
    intro i1 v1 i2 v2 hm1 hm2 hne12 hst1 hst2 hshare
    dsimp only at hm1 hm2
    obtain ⟨p, hp1, hp2⟩ := hshare
    rcases List.mem_cons.mp hm1 with hh1 | hh1 <;> rcases List.mem_cons.mp hm2 with hh2 | hh2
    · exfalso
      injection hh1 with e1 _
      injection hh2 with e2 _
      exact hne12 (e1.trans e2.symm)
    · -- v1 is the new interview, v2 an old SCHEDULED one
      injection hh1 with e1 e2
      subst e1
      subst e2
      obtain ⟨uq, huq, himq⟩ := registered_mem_set hInv hh2 hst2 hp2
      rcases hp1 with hp1 | hp1
      · -- p is the HR manager of the new interview
        dsimp only at hp1
        subst hp1
        rw [hhr'] at huq
        obtain rfl : u_hr = uq := Option.some.inj huq
        have hov := has_conflict_false_elim hc1 hhr himq
          (mem_lookupId hInv.interviews_nodup hh2) hst2
        show TimeSlot.overlaps t v2.time_slot = false
        rw [overlaps_symm]
        exact hov
      · dsimp only at hp1
        subst hp1
        rw [hiv'] at huq
        obtain rfl : u_iv = uq := Option.some.inj huq
        have hov := has_conflict_false_elim hc2 hiv himq
          (mem_lookupId hInv.interviews_nodup hh2) hst2
        show TimeSlot.overlaps t v2.time_slot = false
        rw [overlaps_symm]
        exact hov
    · -- v2 is the new interview, v1 an old SCHEDULED one
      injection hh2 with e1 e2
      subst e1
      subst e2
      obtain ⟨uq, huq, himq⟩ := registered_mem_set hInv hh1 hst1 hp1
      rcases hp2 with hp2 | hp2
      · dsimp only at hp2
        subst hp2
        rw [hhr'] at huq
        obtain rfl : u_hr = uq := Option.some.inj huq
        exact has_conflict_false_elim hc1 hhr himq
          (mem_lookupId hInv.interviews_nodup hh1) hst1
      · dsimp only at hp2
        subst hp2
        rw [hiv'] at huq
        obtain rfl : u_iv = uq := Option.some.inj huq
        exact has_conflict_false_elim hc2 hiv himq
          (mem_lookupId hInv.interviews_nodup hh1) hst1
    · exact hInv.no_double i1 v1 i2 v2 hh1 hh2 hne12 hst1 hst2 ⟨p, hp1, hp2⟩

lemma Inv_cancel_known {s : Scheduler} (hInv : Inv s) {j : Nat} {jrec : Interview}
    (hj : s.get_interview j = some jrec) :
    Inv { s with
        interviews := updateId s.interviews j fun iv =>
          { iv with status := InterviewStatus.CANCELLED },
        users := updateId
          (updateId s.users jrec.hr_manager_id fun u =>
            u.remove_scheduled_interview j)
          jrec.interviewer_id fun u => u.remove_scheduled_interview j } := by
  have hj' : lookupId s.interviews j = some jrec := hj
  constructor
  · dsimp only
    rw [keysOf_updateId, keysOf_updateId]
    exact hInv.users_nodup
  · dsimp only
    rw [keysOf_updateId]
    exact hInv.interviews_nodup
  · dsimp only
    rw [keysOf_updateId, keysOf_updateId]
    exact hInv.users_fresh
  · dsimp only
    rw [keysOf_updateId]
    exact hInv.interviews_fresh
  · dsimp only
    rw [length_updateId]
    exact hInv.interview_count
  · -- bookings_backed
    intro uid u' hmem iid hiid
    dsimp only at hmem hiid ⊢
    obtain ⟨u₀, h0, _, _, hsub, hjnot⟩ := usersC_mem_elim hmem
    have hold := hsub iid hiid
    obtain ⟨iv₀, hlk, hst, href⟩ := hInv.bookings_backed uid u₀ h0 iid hold
    have hiidnej : iid ≠ j := by
      intro hc
      subst hc
      rw [hj'] at hlk
      obtain rfl : iv₀ = jrec := Option.some.inj hlk.symm
      rcases href with h | h
      · exact hjnot (Or.inl h.symm) hiid
      · exact hjnot (Or.inr h.symm) hiid
    refine ⟨iv₀, ?_, hst, href⟩
    rw [lookupId_updateId_ne _ hiidnej]
    exact hlk
  · -- scheduled_registered
    intro iid ivv hmem hst
    dsimp only at hmem ⊢
    rcases mem_updateId_elim hmem with ⟨hEq, iv₀, h0, rfl⟩ | ⟨hNe, h0⟩
    · simp at hst
    · obtain ⟨⟨u1, hu1, hm1⟩, ⟨u2, hu2, hm2⟩⟩ := hInv.scheduled_registered iid ivv h0 hst
      constructor
      · obtain ⟨u1', hu1', _, _, hsub⟩ := usersC_lookup_mono hu1
        exact ⟨u1', hu1', hsub _ hm1 hNe⟩
      · obtain ⟨u2', hu2', _, _, hsub⟩ := usersC_lookup_mono hu2
        exact ⟨u2', hu2', hsub _ hm2 hNe⟩
  · -- no_double
    intro i1 v1 i2 v2 hm1 hm2 hne12 hst1 hst2 hshare
    dsimp only at hm1 hm2
    rcases mem_updateId_elim hm1 with ⟨hEq1, w1, hw1, rfl⟩ | ⟨hNe1, hw1⟩
    · simp at hst1
    rcases mem_updateId_elim hm2 with ⟨hEq2, w2, hw2, rfl⟩ | ⟨hNe2, hw2⟩
    · simp at hst2
    exact hInv.no_double i1 v1 i2 v2 hw1 hw2 hne12 hst1 hst2 hshare

lemma Inv_schedule {s : Scheduler} (hInv : Inv s) (c pos : String) (hr iv : Nat)
    (t : TimeSlot) : Inv (s.schedule_interview c pos hr iv t).1 := by
  rcases schedule_cases s c pos hr iv t with
    ⟨_, heq⟩ | ⟨u_hr, u_iv, hhr, hiv, _, heq⟩ | ⟨u_hr, u_iv, hhr, hiv, _, _, _, heq⟩ |
    ⟨u_hr, u_iv, hhr, hiv, _, _, _, _, _, heq⟩ |
    ⟨u_hr, u_iv, hhr, hiv, r1, r2, a1, a2, hc1, hc2, heq⟩
  · rw [heq]
    exact hInv
  · rw [heq]
    exact hInv
  · rw [heq]
    exact hInv
  · rw [heq]
    exact hInv
  · rw [heq]
    exact Inv_book_success hInv hhr hiv r1 r2 hc1 hc2

lemma Inv_cancel {s : Scheduler} (hInv : Inv s) (j : Nat) :
    Inv (s.cancel_interview j).1 := by
  cases hj : s.get_interview j with
  | none =>
    rw [cancel_none_eval hj]
    exact hInv
  | some jrec =>
    rw [cancel_some_eval hj]
    exact Inv_cancel_known hInv hj

/-- Every reachable engine state satisfies the engine invariant. -/
lemma reachable_inv {s : Scheduler} (h : Reachable s) : Inv s := by
  induction h with
  | init => exact Inv_init
  | add_user s name email role _ ih => exact Inv_add_user ih name email role
  | add_availability s uid slot _ ih => exact Inv_add_availability ih uid slot
  | book s c p hr iv t _ ih => exact Inv_schedule ih c p hr iv t
  | cancel s j _ ih => exact Inv_cancel ih j

/-! ## Result inversion and error characterization for booking -/

lemma schedule_error_state {s : Scheduler} {c pos : String} {hr iv : Nat} {t : TimeSlot}
    {e : BookError} (h : (s.schedule_interview c pos hr iv t).2 = Except.error e) :
    (s.schedule_interview c pos hr iv t).1 = s := by
  rcases schedule_cases s c pos hr iv t with
    ⟨_, heq⟩ | ⟨_, _, _, _, _, heq⟩ | ⟨_, _, _, _, _, _, _, heq⟩ |
    ⟨_, _, _, _, _, _, _, _, _, heq⟩ | ⟨_, _, _, _, _, _, _, _, _, _, heq⟩
  · rw [heq]
  · rw [heq]
  · rw [heq]
  · rw [heq]
  · rw [heq] at h
    simp at h

lemma schedule_ok_inversion {s : Scheduler} {c pos : String} {hr iv : Nat} {t : TimeSlot}
    {n : Nat} (h : (s.schedule_interview c pos hr iv t).2 = Except.ok n) :
    n = s.next_interview_id ∧
    (s.schedule_interview c pos hr iv t).1.next_interview_id = s.next_interview_id + 1 ∧
    (s.schedule_interview c pos hr iv t).1.interviews.length = s.interviews.length + 1 := by
  rcases schedule_cases s c pos hr iv t with
    ⟨_, heq⟩ | ⟨_, _, _, _, _, heq⟩ | ⟨_, _, _, _, _, _, _, heq⟩ |
    ⟨_, _, _, _, _, _, _, _, _, heq⟩ | ⟨_, _, _, _, _, _, _, _, _, _, heq⟩
  · rw [heq] at h
    exact absurd h (by simp)
  · rw [heq] at h
    exact absurd h (by simp)
  · rw [heq] at h
    exact absurd h (by simp)
  · rw [heq] at h
    exact absurd h (by simp)
  · rw [heq] at h
    rw [heq]
    have hn : s.next_interview_id = n := Except.ok.inj h
    exact ⟨hn.symm, rfl, by simp⟩

lemma schedule_unknown_char (s : Scheduler) (c pos : String) (hr iv : Nat) (t : TimeSlot) :
    (s.schedule_interview c pos hr iv t).2 = Except.error BookError.UnknownParticipant ↔
      (s.get_user hr = none ∨ s.get_user iv = none) := by
  rcases schedule_cases s c pos hr iv t with
    ⟨hcond, heq⟩ | ⟨u_hr, u_iv, hhr, hiv, hcond, heq⟩ |
    ⟨u_hr, u_iv, hhr, hiv, r1, r2, hcond, heq⟩ |
    ⟨u_hr, u_iv, hhr, hiv, r1, r2, a1, a2, hcond, heq⟩ |
    ⟨u_hr, u_iv, hhr, hiv, r1, r2, a1, a2, hc1, hc2, heq⟩ <;> rw [heq]
  · simp [hcond]
  · simp [hhr, hiv]
  · simp [hhr, hiv]
  · simp [hhr, hiv]
  · simp [hhr, hiv]

lemma schedule_role_char (s : Scheduler) (c pos : String) (hr iv : Nat) (t : TimeSlot) :
    (s.schedule_interview c pos hr iv t).2 = Except.error BookError.RoleMismatch ↔
      (∃ u_hr u_iv, s.get_user hr = some u_hr ∧ s.get_user iv = some u_iv ∧
        (u_hr.role ≠ UserRole.HR_MANAGER ∨ u_iv.role ≠ UserRole.INTERVIEWER)) := by
  rcases schedule_cases s c pos hr iv t with
    ⟨hcond, heq⟩ | ⟨u_hr, u_iv, hhr, hiv, hcond, heq⟩ |
    ⟨u_hr, u_iv, hhr, hiv, r1, r2, hcond, heq⟩ |
    ⟨u_hr, u_iv, hhr, hiv, r1, r2, a1, a2, hcond, heq⟩ |
    ⟨u_hr, u_iv, hhr, hiv, r1, r2, a1, a2, hc1, hc2, heq⟩ <;> rw [heq]
  · rcases hcond with h | h <;> simp [h]
  · exact iff_of_true rfl ⟨u_hr, u_iv, hhr, hiv, hcond⟩
  · simp [hhr, hiv, r1, r2]
  · simp [hhr, hiv, r1, r2]
  · simp [hhr, hiv, r1, r2]

lemma schedule_notavail_char (s : Scheduler) (c pos : String) (hr iv : Nat) (t : TimeSlot) :
    (s.schedule_interview c pos hr iv t).2 = Except.error BookError.NotAvailable ↔
      (∃ u_hr u_iv, s.get_user hr = some u_hr ∧ s.get_user iv = some u_iv ∧
        u_hr.role = UserRole.HR_MANAGER ∧ u_iv.role = UserRole.INTERVIEWER ∧
        (u_hr.is_available t = false ∨ u_iv.is_available t = false)) := by
  rcases schedule_cases s c pos hr iv t with
    ⟨hcond, heq⟩ | ⟨u_hr, u_iv, hhr, hiv, hcond, heq⟩ |
    ⟨u_hr, u_iv, hhr, hiv, r1, r2, hcond, heq⟩ |
    ⟨u_hr, u_iv, hhr, hiv, r1, r2, a1, a2, hcond, heq⟩ |
    ⟨u_hr, u_iv, hhr, hiv, r1, r2, a1, a2, hc1, hc2, heq⟩ <;> rw [heq]
  · rcases hcond with h | h <;> simp [h]
  · constructor
    · intro hfalse
      simp at hfalse
    · rintro ⟨a, b, ha, hb, hra, hrb, _⟩
      rw [hhr] at ha
      rw [hiv] at hb
      obtain rfl : u_hr = a := Option.some.inj ha
      obtain rfl : u_iv = b := Option.some.inj hb
      rcases hcond with h | h
      · exact absurd hra h
      · exact absurd hrb h
  · exact iff_of_true rfl ⟨u_hr, u_iv, hhr, hiv, r1, r2, hcond⟩
  · simp [hhr, hiv, r1, r2, a1, a2]
  · simp [hhr, hiv, r1, r2, a1, a2]

lemma schedule_conflict_char (s : Scheduler) (c pos : String) (hr iv : Nat) (t : TimeSlot) :
    (s.schedule_interview c pos hr iv t).2 = Except.error BookError.SlotConflict ↔
      (∃ u_hr u_iv, s.get_user hr = some u_hr ∧ s.get_user iv = some u_iv ∧
        u_hr.role = UserRole.HR_MANAGER ∧ u_iv.role = UserRole.INTERVIEWER ∧
        u_hr.is_available t = true ∧ u_iv.is_available t = true ∧
        (s.has_conflict hr t = true ∨ s.has_conflict iv t = true)) := by
  rcases schedule_cases s c pos hr iv t with
    ⟨hcond, heq⟩ | ⟨u_hr, u_iv, hhr, hiv, hcond, heq⟩ |
    ⟨u_hr, u_iv, hhr, hiv, r1, r2, hcond, heq⟩ |
    ⟨u_hr, u_iv, hhr, hiv, r1, r2, a1, a2, hcond, heq⟩ |
    ⟨u_hr, u_iv, hhr, hiv, r1, r2, a1, a2, hc1, hc2, heq⟩ <;> rw [heq]
  · rcases hcond with h | h <;> simp [h]
  · constructor
    · intro hfalse
      simp at hfalse
    · rintro ⟨a, b, ha, hb, hra, hrb, _⟩
      rw [hhr] at ha
      rw [hiv] at hb
      obtain rfl : u_hr = a := Option.some.inj ha
      obtain rfl : u_iv = b := Option.some.inj hb
      rcases hcond with h | h
      · exact absurd hra h
      · exact absurd hrb h
  · constructor
    · intro hfalse
      simp at hfalse
    · rintro ⟨a, b, ha, hb, _, _, haa, hab, _⟩
      rw [hhr] at ha
      rw [hiv] at hb
      obtain rfl : u_hr = a := Option.some.inj ha
      obtain rfl : u_iv = b := Option.some.inj hb
      rcases hcond with h | h
      · rw [haa] at h
        cases h
      · rw [hab] at h
        cases h
  · exact iff_of_true rfl ⟨u_hr, u_iv, hhr, hiv, r1, r2, a1, a2, hcond⟩
  · simp [hhr, hiv, r1, r2, a1, a2, hc1, hc2]

/-! ## Idempotence of the cancellation updates -/

lemma updateId_idem {β : Type} (l : List (Nat × β)) (key : Nat) (f : β → β)
    (hf : ∀ v, f (f v) = f v) : updateId (updateId l key f) key f = updateId l key f := by
  rw [updateId_updateId_same]
  congr 1
  funext v
  exact hf v

lemma cancel_users_idem (us : List (Nat × User)) (a b j : Nat) :
    updateId (updateId (updateId (updateId us
        a (fun u => u.remove_scheduled_interview j))
        b (fun u => u.remove_scheduled_interview j))
        a (fun u => u.remove_scheduled_interview j))
        b (fun u => u.remove_scheduled_interview j) =
      updateId (updateId us a (fun u => u.remove_scheduled_interview j))
        b (fun u => u.remove_scheduled_interview j) := by
  have hidem : ∀ u : User, (u.remove_scheduled_interview j).remove_scheduled_interview j =
      u.remove_scheduled_interview j := fun u => remove_scheduled_idem u j
  by_cases hab : a = b
  · subst hab
    rw [updateId_idem _ a _ hidem, updateId_idem _ a _ hidem,
      updateId_idem _ a _ hidem]
  · rw [updateId_comm (updateId us a fun u => u.remove_scheduled_interview j)
      (fun u => u.remove_scheduled_interview j)
      (fun u => u.remove_scheduled_interview j) (fun hc => hab hc.symm),
      updateId_idem _ a _ hidem, updateId_idem _ b _ hidem]

/-! ## Reachability of the demo states -/

lemma demoS1_reachable : Reachable demoS1 :=
  Reachable.add_user Scheduler.init ("Alice Johnson") ("alice@cloudfit.com")
    UserRole.HR_MANAGER Reachable.init

lemma demoS2_reachable : Reachable demoS2 :=
  Reachable.add_user demoS1 ("Carol Davis") ("carol@cloudfit.com")
    UserRole.INTERVIEWER demoS1_reachable

lemma demoS3_reachable : Reachable demoS3 :=
  Reachable.add_availability demoS2 1 ⟨0, 100⟩ demoS2_reachable

lemma demoS4_reachable : Reachable demoS4 :=
  Reachable.add_availability demoS3 2 ⟨0, 100⟩ demoS3_reachable

lemma demoS5_reachable : Reachable demoS5 :=
  Reachable.book demoS4 ("John Doe") ("Software Engineer") 1 2 ⟨10, 20⟩ demoS4_reachable

/-! ## Claim theorems -/

/-- C1: in every reachable engine state, for every participant `p` no two
distinct SCHEDULED interviews that reference `p` (as HR manager or as
interviewer) have overlapping slots; moreover, whenever the earlier booking
checks pass (both ids resolve, roles match, both available),
`schedule_interview` rejects with `SlotConflict` any slot that overlaps an
active SCHEDULED interview of either named participant. -/
theorem no_double_booking (s : Scheduler) (hreach : Reachable s) :
    (∀ p i1 v1 i2 v2, (i1, v1) ∈ s.interviews → (i2, v2) ∈ s.interviews → i1 ≠ i2 →
      v1.status = InterviewStatus.SCHEDULED → v2.status = InterviewStatus.SCHEDULED →
      v1.references p → v2.references p →
      v1.time_slot.overlaps v2.time_slot = false) ∧
    (∀ c pos hr iv t u_hr u_iv,
      s.get_user hr = some u_hr → s.get_user iv = some u_iv →
      u_hr.role = UserRole.HR_MANAGER → u_iv.role = UserRole.INTERVIEWER →
      u_hr.is_available t = true → u_iv.is_available t = true →
      (∃ j jv, (j, jv) ∈ s.interviews ∧ jv.status = InterviewStatus.SCHEDULED ∧
        (jv.references hr ∨ jv.references iv) ∧ jv.time_slot.overlaps t = true) →
      (s.schedule_interview c pos hr iv t).2 = Except.error BookError.SlotConflict) := by
  have hInv := reachable_inv hreach
  constructor
  · intro p i1 v1 i2 v2 hm1 hm2 hne hst1 hst2 href1 href2
    exact hInv.no_double i1 v1 i2 v2 hm1 hm2 hne hst1 hst2 ⟨p, href1, href2⟩
  · intro c pos hr iv t u_hr u_iv hhr hiv r1 r2 a1 a2 hex
    obtain ⟨j, jv, hjmem, hjst, hjref, hjov⟩ := hex
    have hconf : (s.has_conflict hr t || s.has_conflict iv t) = true := by
      rcases hjref with h | h
      · obtain ⟨u_p, hup, himem⟩ := registered_mem_set hInv hjmem hjst h
        have hlk : lookupId s.users hr = some u_hr := hhr
        rw [hlk] at hup
        obtain rfl : u_hr = u_p := Option.some.inj hup
        have hc := has_conflict_true_intro hhr himem
          (mem_lookupId hInv.interviews_nodup hjmem) hjst hjov
        rw [hc, Bool.true_or]
      · obtain ⟨u_p, hup, himem⟩ := registered_mem_set hInv hjmem hjst h
        have hlk : lookupId s.users iv = some u_iv := hiv
        rw [hlk] at hup
        obtain rfl : u_iv = u_p := Option.some.inj hup
        have hc := has_conflict_true_intro hiv himem
          (mem_lookupId hInv.interviews_nodup hjmem) hjst hjov
        rw [hc, Bool.or_true]
    rw [schedule_conflict_eval hhr hiv r1 r2 a1 a2 hconf]

/-- Witness for C1: in the demo state with interview 1 SCHEDULED on `[10,20)`,
booking the overlapping slot `[15,25)` for the same pair is rejected with
`SlotConflict`. -/
theorem no_double_booking_witness :
    (demoS5.schedule_interview ("X") ("Y") 1 2 ⟨15, 25⟩).2 =
      Except.error BookError.SlotConflict :=
  (no_double_booking demoS5 demoS5_reachable).2 ("X") ("Y") 1 2 ⟨15, 25⟩
    demoAlice demoCarol (by decide) (by decide) (by decide) (by decide)
    (by decide) (by decide)
    ⟨1, demoInterview1, by decide, by decide, Or.inl (Or.inl (by decide)), by decide⟩

/-- C2: a failing `schedule_interview` call (whatever the error kind) returns
the scheduler state unchanged — so the interview registry (contents and size)
and every participant's `scheduled_interviews` set, in particular those of the
two named participants, are exactly as they were, and no Interview record is
created. -/
theorem booking_atomicity (s : Scheduler) (c pos : String) (hr iv : Nat) (t : TimeSlot)
    (e : BookError) (h : (s.schedule_interview c pos hr iv t).2 = Except.error e) :
    (s.schedule_interview c pos hr iv t).1 = s :=
  schedule_error_state h

/-- Witness for C2 at a concrete failing call on the fresh engine. -/
theorem booking_atomicity_witness :
    (Scheduler.init.schedule_interview ("A") ("B") 1 2 ⟨0, 1⟩).1 = Scheduler.init :=
  booking_atomicity Scheduler.init ("A") ("B") 1 2 ⟨0, 1⟩
    BookError.UnknownParticipant (by decide)

/-- C3: the booking failures are checked in exactly the order
`UnknownParticipant`, `RoleMismatch`, `NotAvailable`, `SlotConflict`, each
reported as a distinguishable error: each error is returned if and only if its
condition holds and no earlier condition holds, so when several conditions
hold the earliest in this order is reported. -/
theorem booking_error_order (s : Scheduler) (c pos : String) (hr iv : Nat) (t : TimeSlot) :
    ((s.schedule_interview c pos hr iv t).2 = Except.error BookError.UnknownParticipant ↔
      (s.get_user hr = none ∨ s.get_user iv = none)) ∧
    ((s.schedule_interview c pos hr iv t).2 = Except.error BookError.RoleMismatch ↔
      (∃ u_hr u_iv, s.get_user hr = some u_hr ∧ s.get_user iv = some u_iv ∧
        (u_hr.role ≠ UserRole.HR_MANAGER ∨ u_iv.role ≠ UserRole.INTERVIEWER))) ∧
    ((s.schedule_interview c pos hr iv t).2 = Except.error BookError.NotAvailable ↔
      (∃ u_hr u_iv, s.get_user hr = some u_hr ∧ s.get_user iv = some u_iv ∧
        u_hr.role = UserRole.HR_MANAGER ∧ u_iv.role = UserRole.INTERVIEWER ∧
        (u_hr.is_available t = false ∨ u_iv.is_available t = false))) ∧
    ((s.schedule_interview c pos hr iv t).2 = Except.error BookError.SlotConflict ↔
      (∃ u_hr u_iv, s.get_user hr = some u_hr ∧ s.get_user iv = some u_iv ∧
        u_hr.role = UserRole.HR_MANAGER ∧ u_iv.role = UserRole.INTERVIEWER ∧
        u_hr.is_available t = true ∧ u_iv.is_available t = true ∧
        (s.has_conflict hr t = true ∨ s.has_conflict iv t = true))) :=
  ⟨schedule_unknown_char s c pos hr iv t, schedule_role_char s c pos hr iv t,
    schedule_notavail_char s c pos hr iv t, schedule_conflict_char s c pos hr iv t⟩

/-- C4 counterexample: the claim asserts that a zero-duration slot overlaps
nothing, but under the code's overlap relation the zero-duration slot `[1,1)`
does overlap `[0,2)` (since `1 < 2` and `1 > 0`), so the claim as stated is
false at this concrete input. -/
theorem overlaps_zero_duration_counterexample :
    (TimeSlot.mk 1 1).overlaps (TimeSlot.mk 0 2) = true := by decide

/-- C4 (amended): `overlaps` equals the formula
`start_a < end_b AND end_a > start_b`; consequently it is symmetric, two slots
that merely touch at an endpoint do not overlap, and a zero-duration slot does
not overlap a slot with identical bounds (in particular not itself) — though,
unlike the original claim, a zero-duration slot does overlap a slot whose
interior strictly contains its point. -/
theorem overlaps_spec (a b : TimeSlot) (x y z : Int) :
    (a.overlaps b = true ↔
      (a.start_time < b.end_time ∧ a.end_time > b.start_time)) ∧
    a.overlaps b = b.overlaps a ∧
    (TimeSlot.mk x y).overlaps (TimeSlot.mk y z) = false ∧
    (TimeSlot.mk y z).overlaps (TimeSlot.mk x y) = false ∧
    (TimeSlot.mk x x).overlaps (TimeSlot.mk x x) = false := by
  refine ⟨?_, overlaps_symm a b, ?_, ?_, ?_⟩
  · unfold TimeSlot.overlaps
    simp
  · unfold TimeSlot.overlaps
    simp
  · unfold TimeSlot.overlaps
    simp
  · unfold TimeSlot.overlaps
    simp

/-- C5: `is_available` returns true exactly when some availability window
contains the slot (`w.start <= s.start` and `s.end <= w.end`); the result is
existential over the windows and is unchanged under any reordering
(permutation) of the availability sequence. -/
theorem availability_containment (u : User) (s : TimeSlot) :
    (u.is_available s = true ↔
      ∃ w ∈ u.availability, w.start_time ≤ s.start_time ∧ s.end_time ≤ w.end_time) ∧
    (∀ u' : User, u.availability.Perm u'.availability →
      u.is_available s = u'.is_available s) := by
  have hchar : ∀ v : User, v.is_available s = true ↔
      ∃ w ∈ v.availability, w.start_time ≤ s.start_time ∧ s.end_time ≤ w.end_time := by
    intro v
    unfold User.is_available
    rw [List.any_eq_true]
    constructor
    · rintro ⟨w, hw, hp⟩
      simp only [Bool.and_eq_true, decide_eq_true_eq] at hp
      exact ⟨w, hw, hp.1, hp.2⟩
    · rintro ⟨w, hw, h1, h2⟩
      refine ⟨w, hw, ?_⟩
      simp [ge_iff_le, h1, h2]
  refine ⟨hchar u, ?_⟩
  intro u' hperm
  cases hA : u.is_available s <;> cases hB : u'.is_available s
  · rfl
  · obtain ⟨w, hw, hc⟩ := (hchar u').mp hB
    have : u.is_available s = true := (hchar u).mpr ⟨w, hperm.mem_iff.mpr hw, hc⟩
    rw [hA] at this
    cases this
  · obtain ⟨w, hw, hc⟩ := (hchar u).mp hA
    have : u'.is_available s = true := (hchar u').mpr ⟨w, hperm.mem_iff.mp hw, hc⟩
    rw [hB] at this
    cases this
  · rfl

/-- Witness for C5: two users whose availability lists are permutations of
each other agree on `is_available` at a concrete slot. -/
theorem availability_containment_witness :
    demoUserA.is_available ⟨21, 29⟩ = demoUserB.is_available ⟨21, 29⟩ :=
  (availability_containment demoUserA ⟨21, 29⟩).2 demoUserB (by
    show List.Perm [TimeSlot.mk 0 10, TimeSlot.mk 20 30]
      [TimeSlot.mk 20 30, TimeSlot.mk 0 10]
    exact List.Perm.swap (TimeSlot.mk 20 30) (TimeSlot.mk 0 10) [])

/-- C6: in every reachable engine state, every id in any participant's
`scheduled_interviews` set refers to an interview that exists in the registry,
has status SCHEDULED, and names that participant as its HR manager or its
interviewer; since every engine operation preserves reachability, in
particular `schedule_interview` and `cancel_interview` preserve this
invariant. -/
theorem active_bookings_referential (s : Scheduler) (hreach : Reachable s) :
    ∀ uid u, (uid, u) ∈ s.users → ∀ iid ∈ u.scheduled_interviews,
      ∃ iv, s.get_interview iid = some iv ∧
        iv.status = InterviewStatus.SCHEDULED ∧
        (iv.hr_manager_id = uid ∨ iv.interviewer_id = uid) :=
  (reachable_inv hreach).bookings_backed

/-- Witness for C6 in the demo state: user 1's single booking resolves to the
SCHEDULED interview 1, which names user 1 as its HR manager. -/
theorem active_bookings_referential_witness :
    demoS5.get_interview 1 = some demoInterview1 ∧
    demoInterview1.status = InterviewStatus.SCHEDULED ∧
    (demoInterview1.hr_manager_id = 1 ∨ demoInterview1.interviewer_id = 1) := by
  obtain ⟨iv, h1, h2, h3⟩ :=
    active_bookings_referential demoS5 demoS5_reachable 1 demoAlice (by decide) 1 (by decide)
  have hconcrete : demoS5.get_interview 1 = some demoInterview1 := by decide
  rw [hconcrete] at h1
  obtain rfl : demoInterview1 = iv := Option.some.inj h1
  exact ⟨hconcrete, h2, h3⟩

/-- C7: `cancel_interview` returns false exactly when the id does not resolve
in the interview registry; on a resolving id it returns true, leaves the
interview stored with status CANCELLED, and a second call on the same id
returns true again while leaving the whole state — in particular every
participant's `scheduled_interviews` set and the interview's status — exactly
as the first call left it. -/
theorem cancel_idempotent (s : Scheduler) (j : Nat) :
    ((s.cancel_interview j).2 = false ↔ s.get_interview j = none) ∧
    (∀ ivrec, s.get_interview j = some ivrec →
      (s.cancel_interview j).2 = true ∧
      (s.cancel_interview j).1.get_interview j =
        some { ivrec with status := InterviewStatus.CANCELLED } ∧
      (s.cancel_interview j).1.cancel_interview j = ((s.cancel_interview j).1, true)) := by
  constructor
  · cases hj : s.get_interview j with
    | none =>
      rw [cancel_none_eval hj]
      simp [hj]
    | some ivrec =>
      rw [cancel_some_eval hj]
      simp [hj]
  · intro ivrec hj
    have hj' : lookupId s.interviews j = some ivrec := hj
    have hlk2 : (s.cancel_interview j).1.get_interview j =
        some { ivrec with status := InterviewStatus.CANCELLED } := by
      rw [cancel_some_eval hj]
      show lookupId (updateId s.interviews j fun iv =>
          { iv with status := InterviewStatus.CANCELLED }) j =
        some { ivrec with status := InterviewStatus.CANCELLED }
      rw [lookupId_updateId_self, hj']
      rfl
    refine ⟨by rw [cancel_some_eval hj], hlk2, ?_⟩
    rw [cancel_some_eval hlk2, cancel_some_eval hj]
    dsimp only
    congr 1
    congr 1
    · exact cancel_users_idem s.users ivrec.hr_manager_id ivrec.interviewer_id j
    · exact updateId_idem s.interviews j _ fun v => rfl

/-- Witness for C7 at the demo state: cancelling interview 1 succeeds, stores
it as CANCELLED, and a second cancellation is a successful no-op. -/
theorem cancel_idempotent_witness :
    (demoS5.cancel_interview 1).2 = true ∧
    (demoS5.cancel_interview 1).1.get_interview 1 =
      some { demoInterview1 with status := InterviewStatus.CANCELLED } ∧
    (demoS5.cancel_interview 1).1.cancel_interview 1 =
      ((demoS5.cancel_interview 1).1, true) :=
  (cancel_idempotent demoS5 1).2 demoInterview1 (by decide)

/-- C8: cancelling an interview frees its capacity: if a SCHEDULED interview
`j` at slot `t` is stored, then after `cancel_interview j` a booking at slot
`t` succeeds for any pair of participants — in particular the cancelled
interview's own HR manager and interviewer, or either of them with a new
counterpart — provided the two resolve with the right roles, their
availability windows still contain `t`, and neither has a remaining active
SCHEDULED interview overlapping `t` in the post-cancellation state (the
conflict check is clean). -/
theorem cancellation_frees_capacity (s : Scheduler) (j : Nat) (t : TimeSlot)
    (ivrec : Interview) (p1 p2 : Nat) (u1 u2 : User) (c pos : String)
    (hj : s.get_interview j = some ivrec)
    (hjst : ivrec.status = InterviewStatus.SCHEDULED)
    (hjslot : ivrec.time_slot = t)
    (hp1 : s.get_user p1 = some u1) (r1 : u1.role = UserRole.HR_MANAGER)
    (a1 : u1.is_available t = true)
    (hp2 : s.get_user p2 = some u2) (r2 : u2.role = UserRole.INTERVIEWER)
    (a2 : u2.is_available t = true)
    (hcf1 : (s.cancel_interview j).1.has_conflict p1 t = false)
    (hcf2 : (s.cancel_interview j).1.has_conflict p2 t = false) :
    ((s.cancel_interview j).1.schedule_interview c pos p1 p2 t).2 =
      Except.ok (s.cancel_interview j).1.next_interview_id := by
  have hp1' : lookupId s.users p1 = some u1 := hp1
  have hp2' : lookupId s.users p2 = some u2 := hp2
  obtain ⟨u1', hu1', hrole1, havail1, _⟩ :=
    @usersC_lookup_mono s.users ivrec.hr_manager_id ivrec.interviewer_id j p1 u1 hp1'
  obtain ⟨u2', hu2', hrole2, havail2, _⟩ :=
    @usersC_lookup_mono s.users ivrec.hr_manager_id ivrec.interviewer_id j p2 u2 hp2'
  have hget1 : (s.cancel_interview j).1.get_user p1 = some u1' := by
    rw [cancel_some_eval hj]
    exact hu1'
  have hget2 : (s.cancel_interview j).1.get_user p2 = some u2' := by
    rw [cancel_some_eval hj]
    exact hu2'
  rw [schedule_success_eval hget1 hget2 (hrole1.trans r1) (hrole2.trans r2)
    ((is_available_congr havail1 t).trans a1) ((is_available_congr havail2 t).trans a2)
    hcf1 hcf2]

/-- Witness for C8, exercising the new-counterpart case: after cancelling
interview 1 (between users 1 and 2) in the three-user demo state, booking the
cancelled HR manager 1 with the fresh interviewer 3 on the same slot
succeeds. -/
theorem cancellation_frees_capacity_witness :
    ((demoE5.cancel_interview 1).1.schedule_interview ("Jane Smith")
        ("Product Manager") 1 3 ⟨10, 20⟩).2 =
      Except.ok (demoE5.cancel_interview 1).1.next_interview_id :=
  cancellation_frees_capacity demoE5 1 ⟨10, 20⟩ demoInterview1 1 3 demoAlice demoEve
    ("Jane Smith") ("Product Manager") (by decide) (by decide) (by decide) (by decide)
    (by decide) (by decide) (by decide) (by decide) (by decide) (by decide) (by decide)

/-- C9 (implicit): the conflict check applied to a participant id that does
not resolve in the participant registry returns false — an unknown
participant is reported as conflict-free rather than failing. -/
theorem conflict_unknown_user (s : Scheduler) (uid : Nat) (t : TimeSlot)
    (h : s.get_user uid = none) : s.has_conflict uid t = false := by
  unfold Scheduler.has_conflict
  rw [h]

/-- Witness for C9 on the fresh engine with an unregistered id. -/
theorem conflict_unknown_user_witness :
    Scheduler.init.has_conflict 42 ⟨0, 1⟩ = false :=
  conflict_unknown_user Scheduler.init 42 ⟨0, 1⟩ rfl

/-- C10 (implicit): the interview id counter advances exactly when an
Interview record is created: a successful booking returns the current counter
value and increments it together with the registry size, a failing booking
leaves the state (hence the counter) untouched, and in every reachable state
the counter equals the registry size plus one — so successive successful
bookings on a fresh engine return the consecutive ids 1, 2, 3, ... regardless
of interleaved failed attempts. -/
theorem interview_ids_consecutive (s : Scheduler) (c pos : String) (hr iv : Nat)
    (t : TimeSlot) :
    (∀ n, (s.schedule_interview c pos hr iv t).2 = Except.ok n →
      n = s.next_interview_id ∧
      (s.schedule_interview c pos hr iv t).1.next_interview_id = s.next_interview_id + 1 ∧
      (s.schedule_interview c pos hr iv t).1.interviews.length = s.interviews.length + 1) ∧
    (∀ e, (s.schedule_interview c pos hr iv t).2 = Except.error e →
      (s.schedule_interview c pos hr iv t).1 = s) ∧
    (Reachable s → s.next_interview_id = s.interviews.length + 1) :=
  ⟨fun _ h => schedule_ok_inversion h, fun _ h => schedule_error_state h,
    fun hreach => (reachable_inv hreach).interview_count⟩

/-- Witness for C10: on the demo state the successful booking returns id 1
and advances the counter, a failed attempt leaves the state unchanged, and
the reachable-state counter equation holds concretely. -/
theorem interview_ids_consecutive_witness :
    (1 = demoS4.next_interview_id ∧
      (demoS4.schedule_interview ("John Doe") ("Software Engineer") 1 2
        ⟨10, 20⟩).1.next_interview_id = demoS4.next_interview_id + 1 ∧
      (demoS4.schedule_interview ("John Doe") ("Software Engineer") 1 2
        ⟨10, 20⟩).1.interviews.length = demoS4.interviews.length + 1) ∧
    ((demoS4.schedule_interview ("A") ("B") 7 8 ⟨0, 1⟩).1 = demoS4) ∧
    demoS4.next_interview_id = demoS4.interviews.length + 1 :=
  ⟨(interview_ids_consecutive demoS4 ("John Doe") ("Software Engineer") 1 2 ⟨10, 20⟩).1
      1 (by decide),
    (interview_ids_consecutive demoS4 ("A") ("B") 7 8 ⟨0, 1⟩).2.1
      BookError.UnknownParticipant (by decide),
    (interview_ids_consecutive demoS4 ("A") ("B") 7 8 ⟨0, 1⟩).2.2 demoS4_reachable⟩

end CloudFit
